import Mathlib

/-!
Verification of the pimoroni_yukon driver core against its specification.

Shallow embedding conventions:
- Python floats are modelled as exact rationals (ℚ); the arithmetic in the
  driver is simple enough that no float-specific behaviour is relied upon.
  The float infinities used to initialise running min/max statistics are
  modelled as `Option ℚ` with `none` standing for the infinite initial value.
- Python ints are modelled as ℤ (Lean Int `%` is Euclidean mod, which agrees
  with Python `%` for positive moduli; Python `x &&& (2^k - 1)` equals
  `x % 2^k` on arbitrary-precision two's-complement ints).
- Exceptions are modelled as an explicit error value returned alongside the
  state: raising before mutating translates to returning the input state
  unchanged next to the error.
- Hardware reads (ADC samples, monotonic clock) are passed in as explicit
  parameters or sample traces; logging calls and the observer callback do
  not touch driver state and are omitted.
-/

namespace YukonModel

/-- ADC level constants from pimoroni_yukon/modules.py. -/
def ADC_LOW : Nat := 0
/-- ADC level constant. -/
def ADC_HIGH : Nat := 1
/-- ADC level constant. -/
def ADC_FLOAT : Nat := 2
/-- ADC level constant. -/
def ADC_ANY : Nat := 3

/-- The module kinds defined in pimoroni_yukon/modules.py.  `Base` is the
YukonModule base class (not part of KNOWN_MODULES). -/
inductive MType where
  | LEDStrip
  | QuadServoDirect
  | QuadServoReg
  | BigMotor
  | BenchPower
  | DualSwitched
  | DualMotor
  | ProtoPot
  | AudioAmp
  | Base
deriving DecidableEq

/-- Each class's is_module predicate, transcribed from
pimoroni_yukon/modules.py.  (Python `slow1 is HIGH` on the Bool values LOW
and HIGH is boolean equality; AudioAmp returns False in both branches, and
the YukonModule base returns False unconditionally.) -/
def is_module : MType → Nat → Bool → Bool → Bool → Bool
  | .LEDStrip, lvl, s1, s2, s3 => lvl == ADC_LOW && s1 && s2 && s3
  | .QuadServoDirect, _, s1, s2, s3 => !s1 && !s2 && !s3
  | .QuadServoReg, lvl, s1, s2, s3 => lvl == ADC_FLOAT && !s1 && s2 && !s3
  | .BigMotor, lvl, s1, s2, s3 => lvl == ADC_LOW && !s1 && !s2 && s3
  | .BenchPower, lvl, s1, s2, s3 => lvl == ADC_LOW && s1 && !s2 && !s3
  | .DualSwitched, lvl, s1, s2, s3 => lvl == ADC_FLOAT && s1 && !s2 && s3
  | .DualMotor, lvl, s1, s2, s3 => lvl == ADC_HIGH && s1 && s2 && s3
  | .ProtoPot, _, s1, s2, s3 => s1 && s2 && !s3
  | .AudioAmp, _, _, _, _ => false
  | .Base, _, _, _, _ => false

/-- The static ordered catalogue KNOWN_MODULES from pimoroni_yukon/modules.py. -/
def KNOWN_MODULES : List MType :=
  [.LEDStrip, .QuadServoDirect, .QuadServoReg, .BigMotor, .DualMotor,
   .DualSwitched, .BenchPower, .ProtoPot, .AudioAmp]

/-- The for-loop inside Yukon.__match_module: return the first catalogue
entry whose predicate matches. -/
def match_in_list : List MType → Nat → Bool → Bool → Bool → Option MType
  | [], _, _, _, _ => none
  | m :: rest, lvl, s1, s2, s3 =>
      if is_module m lvl s1 s2 s3 then some m else match_in_list rest lvl s1 s2 s3

/-- Yukon.__match_module from pimoroni_yukon/__init__.py: walk KNOWN_MODULES,
then fall back to the YukonModule base predicate, else no match. -/
def match_module (lvl : Nat) (s1 s2 s3 : Bool) : Option MType :=
  match match_in_list KNOWN_MODULES lvl s1 s2 s3 with
  | some m => some m
  | none => if is_module .Base lvl s1 s2 s3 then some .Base else none

/-- FaultError conditions raised by the Yukon core. -/
inductive FaultKind where
  | shortCircuit (vout vin : ℚ)
  | stabiliseTimeout
  | dissipateTimeout
deriving DecidableEq

/-- VerificationError conditions raised by Yukon.__verify_modules. -/
inductive VerifKind where
  | noModules
  | discrepancy
  | undetected
  | unregistered
deriving DecidableEq

/-- ValueError conditions raised by the registry operations. -/
inductive ValueKind where
  | slotOutOfRange
  | cannotRegisterBase
  | unknownModule
  | alreadyPopulated
deriving DecidableEq

/-- RuntimeError conditions raised by the registry operations. -/
inductive RuntimeKind where
  | outputActive
deriving DecidableEq

/-- The Python exception classes raised by the core (pimoroni_yukon/errors
and builtins), with the offending reading or condition attached in place of
the message text. -/
inductive PErr where
  | overVoltage (v : ℚ)
  | underVoltage (v : ℚ)
  | overCurrent (c : ℚ)
  | overTemperature (t : ℚ)
  | fault (k : FaultKind)
  | verification (k : VerifKind)
  | valueError (k : ValueKind)
  | runtimeError (k : RuntimeKind)
deriving DecidableEq

/-- The running statistics fields of the Yukon class.  `none` in a max field
models the float('-inf') initial value, and in a min field float('inf'). -/
structure Stats where
  max_voltage_in : Option ℚ
  min_voltage_in : Option ℚ
  avg_voltage_in : ℚ
  max_voltage_out : Option ℚ
  min_voltage_out : Option ℚ
  avg_voltage_out : ℚ
  max_current : Option ℚ
  min_current : Option ℚ
  avg_current : ℚ
  max_temperature : Option ℚ
  min_temperature : Option ℚ
  avg_temperature : ℚ
  count_avg : ℕ
deriving DecidableEq

/-- Yukon.__clear_readings: min/max back to the infinities, sums and count
to zero. -/
def clearedStats : Stats :=
  ⟨none, none, 0, none, none, 0, none, none, 0, none, none, 0, 0⟩

/-- A registered module as seen by the core: its kind, and the outcome of
its monitor() hook this tick (`some e` models the hook raising e). -/
structure Module where
  kind : MType
  monitorRaises : Option PErr
deriving DecidableEq

/-- The Yukon driver state touched by the core operations. -/
structure YState where
  voltage_limit : ℚ
  current_limit : ℚ
  temperature_limit : ℚ
  main_en : Bool
  slots : List (Option Module)
  stats : Stats
deriving DecidableEq

namespace Yukon

/-- Class constant from pimoroni_yukon/__init__.py. -/
def DEFAULT_VOLTAGE_LIMIT : ℚ := 86 / 5
/-- Class constant. -/
def VOLTAGE_LOWER_LIMIT : ℚ := 24 / 5
/-- Class constant. -/
def VOLTAGE_ZERO_LEVEL : ℚ := 1 / 20
/-- Class constant. -/
def VOLTAGE_SHORT_LEVEL : ℚ := 1 / 2
/-- Class constant. -/
def DEFAULT_CURRENT_LIMIT : ℚ := 20
/-- Class constant. -/
def DEFAULT_TEMPERATURE_LIMIT : ℚ := 80
/-- Class constant. -/
def ABSOLUTE_MAX_VOLTAGE_LIMIT : ℚ := 18
/-- Class constant. -/
def NUM_SLOTS : ℕ := 6
/-- Class constant, in nanoseconds. -/
def OUTPUT_STABLISE_TIMEOUT_NS : Int := 200000000
/-- Class constant, in nanoseconds. -/
def OUTPUT_STABLISE_TIME_NS : Int := 10000000
/-- Class constant. -/
def OUTPUT_STABLISE_V_DIFF : ℚ := 1 / 10

/-- Yukon.__init__: the limit fields it stores and the empty slot table.
Only voltage_limit is clamped (min with ABSOLUTE_MAX_VOLTAGE_LIMIT); the
current and temperature limits are stored exactly as passed. -/
def init (voltage_limit current_limit temperature_limit : ℚ) : YState :=
  { voltage_limit := min voltage_limit ABSOLUTE_MAX_VOLTAGE_LIMIT
    current_limit := current_limit
    temperature_limit := temperature_limit
    main_en := false
    slots := List.replicate NUM_SLOTS none
    stats := clearedStats }

/-- Yukon.disable_main_output: de-assert the main enable line. -/
def disable_main_output (s : YState) : YState := { s with main_en := false }

/-- Python max against a running maximum initialised to float('-inf'). -/
def maxO (v : ℚ) : Option ℚ → ℚ
  | none => v
  | some x => max v x

/-- Python min against a running minimum initialised to float('inf'). -/
def minO (v : ℚ) : Option ℚ → ℚ
  | none => v
  | some x => min v x

/-- The statistics-update block at the end of Yukon.monitor. -/
def update_readings (s : YState) (vin vout curr temp : ℚ) : YState :=
  { s with stats :=
    { max_voltage_in := some (maxO vin s.stats.max_voltage_in)
      min_voltage_in := some (minO vin s.stats.min_voltage_in)
      avg_voltage_in := s.stats.avg_voltage_in + vin
      max_voltage_out := some (maxO vout s.stats.max_voltage_out)
      min_voltage_out := some (minO vout s.stats.min_voltage_out)
      avg_voltage_out := s.stats.avg_voltage_out + vout
      max_current := some (maxO curr s.stats.max_current)
      min_current := some (minO curr s.stats.min_current)
      avg_current := s.stats.avg_current + curr
      max_temperature := some (maxO temp s.stats.max_temperature)
      min_temperature := some (minO temp s.stats.min_temperature)
      avg_temperature := s.stats.avg_temperature + temp
      count_avg := s.stats.count_avg + 1 } }

/-- The per-module monitor() loop in Yukon.monitor: modules run in slot
order and the first raised exception propagates (later modules do not run). -/
def first_module_error (slots : List (Option Module)) : Option PErr :=
  slots.findSome? (fun om =>
    match om with
    | none => none
    | some m => m.monitorRaises)

/-- Yukon.monitor (pimoroni_yukon/__init__.py lines 501-568), as a function
of the four rail readings taken this tick.  Every raise is preceded by
disable_main_output; the statistics update runs only after all board checks
and every module's monitor() pass. -/
def monitor (s : YState) (vin vout curr temp : ℚ) : YState × Option PErr :=
  if vin > s.voltage_limit then
    (disable_main_output s, some (.overVoltage vin))
  else if vin < VOLTAGE_LOWER_LIMIT then
    (disable_main_output s, some (.underVoltage vin))
  else if vout < VOLTAGE_SHORT_LEVEL then
    (disable_main_output s, some (.fault (.shortCircuit vout vin)))
  else if vout < VOLTAGE_LOWER_LIMIT then
    (disable_main_output s, some (.underVoltage vout))
  else if curr > s.current_limit then
    (disable_main_output s, some (.overCurrent curr))
  else if temp > s.temperature_limit then
    (disable_main_output s, some (.overTemperature temp))
  else
    match first_module_error s.slots with
    | some e => (disable_main_output s, some e)
    | none => (update_readings s vin vout curr temp, none)

/-- The spec-side board-check order (spec §4.6): input over-voltage, input
under-voltage, output short-circuit, output under-voltage, over-current,
over-temperature; the first violation determines the error. -/
def first_board_violation (s : YState) (vin vout curr temp : ℚ) : Option PErr :=
  if vin > s.voltage_limit then some (.overVoltage vin)
  else if vin < VOLTAGE_LOWER_LIMIT then some (.underVoltage vin)
  else if vout < VOLTAGE_SHORT_LEVEL then some (.fault (.shortCircuit vout vin))
  else if vout < VOLTAGE_LOWER_LIMIT then some (.underVoltage vout)
  else if curr > s.current_limit then some (.overCurrent curr)
  else if temp > s.temperature_limit then some (.overTemperature temp)
  else none

/-- Yukon.register_with_slot (pimoroni_yukon/__init__.py lines 168-184).
Check order as in the source: output-active guard, slot validation, module
type validation, then occupancy.  The slot argument is the 1-based integer
form accepted by __check_slot.  Raising is modelled by returning the input
state unchanged next to the error, mirroring that the source raises before
any assignment. -/
def register_with_slot (s : YState) (m : Module) (slot : ℕ) : YState × Option PErr :=
  if s.main_en then (s, some (.runtimeError .outputActive))
  else if slot < 1 ∨ slot > NUM_SLOTS then (s, some (.valueError .slotOutOfRange))
  else if m.kind = .Base then (s, some (.valueError .cannotRegisterBase))
  else if m.kind ∉ KNOWN_MODULES then (s, some (.valueError .unknownModule))
  else
    match s.slots[slot - 1]? with
    | some none => ({ s with slots := s.slots.set (slot - 1) (some m) }, none)
    | some (some _) => (s, some (.valueError .alreadyPopulated))
    | none => (s, some (.valueError .slotOutOfRange))

/-- Outcome of the ramp-up while-loop inside Yukon.enable_main_output. -/
inductive LoopOut where
  | overVoltage (v : ℚ)
  | timeout
  | stable (v : ℚ)
deriving DecidableEq

/-- The ramp-up while-loop of Yukon.enable_main_output (lines 392-414),
driven by the finite trace of (output voltage, monotonic time) sample pairs
the loop would read.  `old` is the previous sample (initially the voltage
read before enabling), `fst` the first_stable_time accumulator (0 = unset,
as in the source).  Returns none if the trace is exhausted before the loop
exits. -/
def enableLoop (vlimit : ℚ) (start : Int) :
    ℚ → Int → List (ℚ × Int) → Option LoopOut
  | _, _, [] => none
  | old, fst, (nv, nt) :: rest =>
      if nv > vlimit then some (.overVoltage nv)
      else if |nv - old| < OUTPUT_STABLISE_V_DIFF then
        if fst = 0 then
          (if nt - start > OUTPUT_STABLISE_TIMEOUT_NS then some .timeout
           else enableLoop vlimit start nv nt rest)
        else if nt - fst > OUTPUT_STABLISE_TIME_NS then some (.stable nv)
        else
          (if nt - start > OUTPUT_STABLISE_TIMEOUT_NS then some .timeout
           else enableLoop vlimit start nv fst rest)
      else
        (if nt - start > OUTPUT_STABLISE_TIMEOUT_NS then some .timeout
         else enableLoop vlimit start nv 0 rest)

/-- The trace-level reading of "the output voltage has not stabilised":
walking the sample trace with the debounce bookkeeping of the ramp-up loop
(previous sample voltage, first_stable_time with the source's 0-as-unset
sentinel), no window of consecutive samples within the stabilise delta is
ever sustained for longer than OUTPUT_STABLISE_TIME_NS — at every
within-delta sample with a set first_stable_time, the elapsed stable time is
still at most the sustain duration.  Transient entries into the delta that
reset or never last the duration satisfy this predicate. -/
def never_stabilised : ℚ → Int → List (ℚ × Int) → Prop
  | _, _, [] => True
  | old, fst, (nv, nt) :: rest =>
      if |nv - old| < OUTPUT_STABLISE_V_DIFF then
        if fst = 0 then never_stabilised nv nt rest
        else nt - fst ≤ OUTPUT_STABLISE_TIME_NS ∧ never_stabilised nv fst rest
      else never_stabilised nv 0 rest

/-- Yukon.enable_main_output (lines 368-428): no-op when already enabled;
otherwise input-rail prechecks, then the ramp-up loop (the enable line is
asserted on entering it), then the post-stability short-circuit and
under-voltage checks; on success the readings are cleared.  `vin` is the
input voltage read by the precheck, `start` the monotonic time taken before
enabling, `old0` the output voltage read before enabling, and `samples` the
trace of (output voltage, time) pairs the loop would read.  Returns none
when the trace is too short to decide the loop. -/
def enable_main_output (s : YState) (vin : ℚ) (start : Int) (old0 : ℚ)
    (samples : List (ℚ × Int)) : Option (YState × Option PErr) :=
  if s.main_en then some (s, none)
  else if vin > ABSOLUTE_MAX_VOLTAGE_LIMIT then some (s, some (.overVoltage vin))
  else if vin > s.voltage_limit then some (s, some (.overVoltage vin))
  else if vin < VOLTAGE_ZERO_LEVEL then some (s, some (.underVoltage vin))
  else if vin < VOLTAGE_LOWER_LIMIT then some (s, some (.underVoltage vin))
  else
    match enableLoop s.voltage_limit start old0 0 samples with
    | none => none
    | some (.overVoltage v) =>
        some ({ s with main_en := false }, some (.overVoltage v))
    | some .timeout =>
        some ({ s with main_en := false }, some (.fault .stabiliseTimeout))
    | some (.stable v) =>
        if v < VOLTAGE_SHORT_LEVEL then
          some ({ s with main_en := false }, some (.fault (.shortCircuit v vin)))
        else if v < VOLTAGE_LOWER_LIMIT then
          some ({ s with main_en := false }, some (.underVoltage v))
        else some ({ s with main_en := true, stats := clearedStats }, none)

/-- The per-slot classification of Yukon.__verify_modules (spec §4.4):
registered kind vs detected kind. -/
inductive SlotCategory where
  | empty
  | correct
  | undetected
  | unregDetected
  | discrepancy
deriving DecidableEq

/-- Classify one slot from its registered and detected module kinds,
following the branch structure of the scan loop in __verify_modules. -/
def slot_category (reg det : Option MType) : SlotCategory :=
  match det with
  | none =>
      match reg with
      | some _ => .undetected
      | none => .empty
  | some d =>
      match reg with
      | some r => if r = d then .correct else .discrepancy
      | none => .unregDetected

/-- The accumulator of the scan loop in __verify_modules: the three raise
flags and the unregistered_slots counter. -/
structure VFlags where
  undet : Bool
  disc : Bool
  unreg : Bool
  count : ℕ
deriving DecidableEq

/-- One iteration of the scan loop of __verify_modules, on the entry
(slot id, registered kind, detected kind). -/
def scan_step (aUnreg aUndet aDisc : List ℕ) (f : VFlags)
    (e : ℕ × Option MType × Option MType) : VFlags :=
  match slot_category e.2.1 e.2.2 with
  | .undetected => if e.1 ∈ aUndet then f else { f with undet := true }
  | .empty => { f with count := f.count + 1 }
  | .correct => f
  | .discrepancy => if e.1 ∈ aDisc then f else { f with disc := true }
  | .unregDetected =>
      if e.1 ∈ aUnreg then { f with count := f.count + 1 }
      else { f with unreg := true, count := f.count + 1 }

/-- The full scan over every slot: classification of all entries before any
error decision. -/
def verify_scan (aUnreg aUndet aDisc : List ℕ)
    (entries : List (ℕ × Option MType × Option MType)) : VFlags :=
  entries.foldl (scan_step aUnreg aUndet aDisc) ⟨false, false, false, 0⟩

/-- Yukon.__expand_slot_list: a boolean allow argument expands to all slot
IDs or none; an explicit list passes through (slot IDs 1..6). -/
def expand_slot_list : Bool ⊕ List ℕ → List ℕ
  | .inl true => [1, 2, 3, 4, 5, 6]
  | .inl false => []
  | .inr l => l

/-- Pair each slot ID (starting from n) with its registered and detected
module kinds, in slot order — the iteration sequence of the scan loop. -/
def slot_entries : ℕ → List (Option MType) → List (Option MType) →
    List (ℕ × Option MType × Option MType)
  | _, [], _ => []
  | _, _ :: _, [] => []
  | n, r :: rs, d :: ds => (n, r, d) :: slot_entries (n + 1) rs ds

/-- Yukon.__verify_modules (lines 261-310): scan every slot pairing the
registered kind with the detection result for that slot, then raise at most
one aggregated VerificationError, in the priority order no-modules,
discrepancy, undetected, unregistered.  `reg` is the slot-assignment table
(registered kinds in slot order), `det` the per-slot detection results. -/
def verify_modules (reg det : List (Option MType))
    (aUnreg aUndet aDisc : List ℕ) (aNo : Bool) : Option PErr :=
  let f := verify_scan aUnreg aUndet aDisc (slot_entries 1 reg det)
  if aNo = false ∧ f.count = NUM_SLOTS then some (.verification .noModules)
  else if f.disc then some (.verification .discrepancy)
  else if f.undet then some (.verification .undetected)
  else if f.unreg then some (.verification .unregistered)
  else none

end Yukon

end YukonModel

namespace Timing

/-- TICKS_PERIOD from pimoroni_yukon/timing.py: 1 <<< 29. -/
def TICKS_PERIOD : Int := 536870912
/-- TICKS_MAX = TICKS_PERIOD - 1. -/
def TICKS_MAX : Int := TICKS_PERIOD - 1
/-- TICKS_HALFPERIOD = TICKS_PERIOD / 2. -/
def TICKS_HALFPERIOD : Int := 268435456

/-- ticks_add from timing.py: (ticks + delta) % TICKS_PERIOD.  Python `%`
with a positive modulus agrees with Lean Int `%` (Euclidean). -/
def ticks_add (ticks delta : Int) : Int := (ticks + delta) % TICKS_PERIOD

/-- ticks_diff from timing.py.  Python `x &&& TICKS_MAX` on arbitrary-precision
ints equals `x % TICKS_PERIOD`, so the two mask steps are written as mods. -/
def ticks_diff (ticks1 ticks2 : Int) : Int :=
  ((ticks1 - ticks2) % TICKS_PERIOD + TICKS_HALFPERIOD) % TICKS_PERIOD -
    TICKS_HALFPERIOD

end Timing

namespace BenchPower

/-- Calibration constants of BenchPowerModule (modules/bench_power.py). -/
def VOLTAGE_MAX : ℚ := 123953 / 10000
/-- Calibration constant. -/
def VOLTAGE_MID : ℚ := 65052 / 10000
/-- Calibration constant. -/
def VOLTAGE_MIN : ℚ := 6713 / 10000
/-- Calibration constant. -/
def VOLTAGE_MIN_MEASURE : ℚ := 1477 / 10000
/-- Calibration constant. -/
def VOLTAGE_MID_MEASURE : ℚ := 11706 / 10000
/-- Calibration constant. -/
def VOLTAGE_MAX_MEASURE : ℚ := 22007 / 10000

/-- BenchPowerModule.read_voltage (modules/bench_power.py lines 82-88),
as a function of the raw ADC1 sample. -/
def read_voltage (voltage : ℚ) : ℚ :=
  if voltage ≥ VOLTAGE_MID_MEASURE then
    ((voltage - VOLTAGE_MID_MEASURE) * (VOLTAGE_MAX - VOLTAGE_MID)) /
        (VOLTAGE_MAX_MEASURE - VOLTAGE_MID_MEASURE) + VOLTAGE_MID
  else
    max (((voltage - VOLTAGE_MIN_MEASURE) * (VOLTAGE_MID - VOLTAGE_MIN)) /
        (VOLTAGE_MID_MEASURE - VOLTAGE_MIN_MEASURE) + VOLTAGE_MIN) 0

end BenchPower

namespace YukonModel

/-- First-match characterisation of the linear walk. -/
theorem match_in_list_eq_some_iff (l : List MType) (lvl : Nat) (s1 s2 s3 : Bool)
    (m : MType) :
    match_in_list l lvl s1 s2 s3 = some m ↔
      ∃ l1 l2, l = l1 ++ m :: l2 ∧ is_module m lvl s1 s2 s3 = true ∧
        ∀ m' ∈ l1, is_module m' lvl s1 s2 s3 = false := by
  induction l with
  | nil =>
      simp [match_in_list]
  | cons a rest ih =>
      simp only [match_in_list]
      by_cases ha : is_module a lvl s1 s2 s3 = true
      · rw [if_pos ha]
        constructor
        · intro h
          have hm : a = m := by simpa using h
          subst hm
          exact ⟨[], rest, rfl, ha, by simp⟩
        · rintro ⟨l1, l2, heq, hm, hfirst⟩
          cases l1 with
          | nil =>
              have h1 : a = m ∧ rest = l2 := by simpa using heq
              simp [h1.1]
          | cons b l1t =>
              exfalso
              have hab : a = b := by simpa using congrArg (fun l => l.head?) heq
              have hfa : is_module a lvl s1 s2 s3 = false := by
                rw [hab]
                exact hfirst b (by simp)
              rw [ha] at hfa
              exact absurd hfa (by simp)
      · have ha' : is_module a lvl s1 s2 s3 = false := by
          simpa using ha
        rw [if_neg ha, ih]
        constructor
        · rintro ⟨l1, l2, heq, hm, hfirst⟩
          refine ⟨a :: l1, l2, by simp [heq], hm, ?_⟩
          intro m' hm'
          rcases List.mem_cons.mp hm' with h | h
          · rw [h]
            exact ha'
          · exact hfirst m' h
        · rintro ⟨l1, l2, heq, hm, hfirst⟩
          cases l1 with
          | nil =>
              exfalso
              have h1 : a = m ∧ rest = l2 := by simpa using heq
              rw [h1.1] at ha'
              exact absurd hm (by simp [ha'])
          | cons b l1t =>
              have htail : rest = l1t ++ m :: l2 := by
                simpa using congrArg (fun l => l.tail) heq
              exact ⟨l1t, l2, htail, hm, fun m' h => hfirst m' (by simp [h])⟩

/-- No-match characterisation of the linear walk. -/
theorem match_in_list_eq_none_iff (l : List MType) (lvl : Nat) (s1 s2 s3 : Bool) :
    match_in_list l lvl s1 s2 s3 = none ↔
      ∀ m ∈ l, is_module m lvl s1 s2 s3 = false := by
  induction l with
  | nil => simp [match_in_list]
  | cons a rest ih =>
      by_cases ha : is_module a lvl s1 s2 s3 = true
      · simp [match_in_list, ha]
      · have ha' : is_module a lvl s1 s2 s3 = false := by simpa using ha
        simp [match_in_list, ha', ih]

/-- The YukonModule base fallback never fires: its predicate is constantly
false, so __match_module agrees with the catalogue walk. -/
theorem match_module_eq_match_in_list (lvl : Nat) (s1 s2 s3 : Bool) :
    match_module lvl s1 s2 s3 = match_in_list KNOWN_MODULES lvl s1 s2 s3 := by
  unfold match_module
  cases h : match_in_list KNOWN_MODULES lvl s1 s2 s3 with
  | some m => rfl
  | none => simp [is_module]

/-- C2: Module identification is a deterministic first-match walk of the
static ordered catalogue: for every tuple (adc_level, sense1, sense2, sense3),
__match_module returns the first KNOWN_MODULES entry whose predicate matches
(catalogue order alone breaks ties between overlapping signatures), and
returns no match when no predicate matches.  Determinism over repeated calls
is immediate because the embedding is a pure function of the tuple. -/
theorem match_module_first_match (lvl : Nat) (s1 s2 s3 : Bool) :
    (∀ m : MType, match_module lvl s1 s2 s3 = some m ↔
        ∃ l1 l2, KNOWN_MODULES = l1 ++ m :: l2 ∧
          is_module m lvl s1 s2 s3 = true ∧
          ∀ m' ∈ l1, is_module m' lvl s1 s2 s3 = false) ∧
      (match_module lvl s1 s2 s3 = none ↔
        ∀ m ∈ KNOWN_MODULES, is_module m lvl s1 s2 s3 = false) := by
  rw [match_module_eq_match_in_list]
  exact ⟨fun m => match_in_list_eq_some_iff KNOWN_MODULES lvl s1 s2 s3 m,
    match_in_list_eq_none_iff KNOWN_MODULES lvl s1 s2 s3⟩

/-- Witness for C2: on the LED Strip signature (ADC low, all sense lines
high), identification returns the first (and here unique) matching entry. -/
theorem match_module_first_match_witness :
    match_module ADC_LOW true true true = some MType.LEDStrip :=
  ((match_module_first_match ADC_LOW true true true).1 MType.LEDStrip).mpr
    ⟨[], [.QuadServoDirect, .QuadServoReg, .BigMotor, .DualMotor,
      .DualSwitched, .BenchPower, .ProtoPot, .AudioAmp], rfl, by decide, by simp⟩

namespace Yukon

/-- C1: Yukon.monitor evaluates the board-level checks in the fixed order
input over-voltage → input under-voltage → output short-circuit → output
under-voltage → over-current → over-temperature; the first violated check
de-asserts the main enable line in the state returned alongside the raised
typed error, and no later checks contribute to the result that tick.  The
right-hand side is the spec-order priority function, so this equality shows
the error (and the disabled output) is exactly that of the first violation,
for all readings of the later rails. -/
theorem monitor_first_violation (s : YState) (vin vout curr temp : ℚ) :
    monitor s vin vout curr temp =
      match first_board_violation s vin vout curr temp with
      | some e => (disable_main_output s, some e)
      | none =>
          match first_module_error s.slots with
          | some e => (disable_main_output s, some e)
          | none => (update_readings s vin vout curr temp, none) := by
  unfold monitor first_board_violation
  split_ifs <;> rfl

/-- C9: whenever Yukon.monitor raises — a board-level limit violation or an
exception propagated from a registered module's monitor() — every
running-statistics field is exactly as it was before the call; statistics
update only on a tick where every check passes. -/
theorem monitor_stats_unchanged_on_error (s : YState) (vin vout curr temp : ℚ)
    (e : PErr) (h : (monitor s vin vout curr temp).2 = some e) :
    (monitor s vin vout curr temp).1.stats = s.stats := by
  unfold monitor at h ⊢
  split_ifs at h ⊢ <;>
    first
      | rfl
      | (cases hm : first_module_error s.slots <;> simp [hm, disable_main_output] at h ⊢)

/-- Witness for C9: a concrete over-voltage tick leaves the statistics
untouched. -/
theorem monitor_stats_unchanged_on_error_witness :
    (monitor
        { voltage_limit := 18, current_limit := 20, temperature_limit := 80,
          main_en := true, slots := [], stats := clearedStats } 100 12 1 25).1.stats =
      ({ voltage_limit := 18, current_limit := 20, temperature_limit := 80,
          main_en := true, slots := [], stats := clearedStats } : YState).stats :=
  monitor_stats_unchanged_on_error _ 100 12 1 25 (.overVoltage 100) (by
    have h : (100:ℚ) > (18:ℚ) := by norm_num
    simp only [monitor]
    rw [if_pos (show (100:ℚ) >
      ({ voltage_limit := 18, current_limit := 20, temperature_limit := 80,
          main_en := true, slots := [], stats := clearedStats } : YState).voltage_limit
      from h)])

/-- Counterexample to C3 as stated: the constructor does not clamp the
current limit to any fixed absolute ceiling — for every proposed bound there
is a construction-time configuration whose stored current_limit exceeds it
(the source stores current_limit and temperature_limit verbatim; only
voltage_limit is clamped). -/
theorem init_current_limit_not_clamped :
    ¬ ∃ M : ℚ, ∀ c : ℚ, (init DEFAULT_VOLTAGE_LIMIT c 80).current_limit ≤ M := by
  rintro ⟨M, h⟩
  have hM := h (M + 1)
  simp only [init] at hM
  linarith

/-- C3 amended: of the three user limits, only voltage_limit is clamped to
its absolute hardware ceiling (18 V); current_limit and temperature_limit
are stored exactly as passed, with no ceiling applied. -/
theorem init_clamps_only_voltage (v c t : ℚ) :
    (init v c t).voltage_limit ≤ ABSOLUTE_MAX_VOLTAGE_LIMIT ∧
      (init v c t).voltage_limit ≤ v ∧
      (init v c t).current_limit = c ∧
      (init v c t).temperature_limit = t :=
  ⟨min_le_right v ABSOLUTE_MAX_VOLTAGE_LIMIT, min_le_left v ABSOLUTE_MAX_VOLTAGE_LIMIT,
    rfl, rfl⟩

/-- C6: register_with_slot fails with OutputActive (RuntimeError) whenever
the main output is enabled, and — for a registrable module and a valid slot
index — with AlreadyPopulated (ValueError) when the slot already holds a
module; in both failure cases the returned state is the input state, so the
slot-assignment table is exactly as it was. -/
theorem register_failure_cases (s : YState) (m : Module) (slot : ℕ) :
    (s.main_en = true →
      register_with_slot s m slot = (s, some (.runtimeError .outputActive))) ∧
    (s.main_en = false → 1 ≤ slot → slot ≤ NUM_SLOTS →
      m.kind ≠ .Base → m.kind ∈ KNOWN_MODULES →
      ∀ mm : Module, s.slots[slot - 1]? = some (some mm) →
        register_with_slot s m slot = (s, some (.valueError .alreadyPopulated))) := by
  constructor
  · intro hen
    unfold register_with_slot
    rw [if_pos hen]
  · intro hen h1 h6 hbase hknown mm hocc
    unfold register_with_slot
    rw [if_neg (by simp [hen]), if_neg (by omega), if_neg hbase,
      if_neg (by simp [hknown]), hocc]

/-- Witness for C6: both failure cases at concrete states — an enabled board
rejects registration with OutputActive, and a disabled board with slot 1
occupied rejects it with AlreadyPopulated; both leave the state unchanged. -/
theorem register_failure_cases_witness :
    register_with_slot
        { voltage_limit := 18, current_limit := 20, temperature_limit := 80,
          main_en := true, slots := List.replicate 6 none, stats := clearedStats }
        ⟨.LEDStrip, none⟩ 1 =
      ({ voltage_limit := 18, current_limit := 20, temperature_limit := 80,
          main_en := true, slots := List.replicate 6 none, stats := clearedStats },
        some (.runtimeError .outputActive)) ∧
    register_with_slot
        { voltage_limit := 18, current_limit := 20, temperature_limit := 80,
          main_en := false,
          slots := [some ⟨.BigMotor, none⟩, none, none, none, none, none],
          stats := clearedStats }
        ⟨.LEDStrip, none⟩ 1 =
      ({ voltage_limit := 18, current_limit := 20, temperature_limit := 80,
          main_en := false,
          slots := [some ⟨.BigMotor, none⟩, none, none, none, none, none],
          stats := clearedStats },
        some (.valueError .alreadyPopulated)) := by
  constructor
  · exact (register_failure_cases _ ⟨.LEDStrip, none⟩ 1).1 rfl
  · exact (register_failure_cases _ ⟨.LEDStrip, none⟩ 1).2 rfl (by norm_num)
      (by norm_num [NUM_SLOTS]) (by decide) (by decide) ⟨.BigMotor, none⟩ rfl

/-- C7: enable_main_output is idempotent — whenever the main output is
already enabled the call is a no-op: no prechecks run, no error is raised,
and the state (enable line, statistics, everything) is returned unchanged. -/
theorem enable_main_output_idempotent (s : YState) (vin : ℚ) (start : Int)
    (old0 : ℚ) (samples : List (ℚ × Int)) (h : s.main_en = true) :
    enable_main_output s vin start old0 samples = some (s, none) := by
  unfold enable_main_output
  rw [if_pos h]

/-- Witness for C7: a concrete already-enabled state is returned unchanged. -/
theorem enable_main_output_idempotent_witness :
    enable_main_output
        { voltage_limit := 18, current_limit := 20, temperature_limit := 80,
          main_en := true, slots := [], stats := clearedStats } 12 0 0 [] =
      some
        ({ voltage_limit := 18, current_limit := 20, temperature_limit := 80,
           main_en := true, slots := [], stats := clearedStats },
         none) :=
  enable_main_output_idempotent _ 12 0 0 [] rfl

/-- If the trace never sustains a within-delta window for the stabilise
duration up to a sample p past the overall deadline, the ramp-up loop exits
with the stabilisation timeout (at the first deadline crossing), provided no
sample up to p exceeds the voltage limit.  Works for any debounce state
(old, fst) the loop is in. -/
theorem enableLoop_timeout_of_never_stabilised (vlimit : ℚ) (start : Int)
    (p : ℚ × Int) (post : List (ℚ × Int)) :
    ∀ (pre : List (ℚ × Int)) (old : ℚ) (fst : Int),
      never_stabilised old fst (pre ++ [p]) →
      (∀ q ∈ pre ++ [p], q.1 ≤ vlimit) →
      p.2 - start > OUTPUT_STABLISE_TIMEOUT_NS →
      enableLoop vlimit start old fst (pre ++ p :: post) = some .timeout := by
  intro pre
  induction pre with
  | nil =>
      intro old fst hns hble htime
      obtain ⟨nv, nt⟩ := p
      have hnv : nv ≤ vlimit := hble (nv, nt) (by simp)
      simp only [List.nil_append] at hns ⊢
      simp only [never_stabilised] at hns
      simp only [enableLoop]
      rw [if_neg (not_lt.mpr hnv)]
      by_cases hd : |nv - old| < OUTPUT_STABLISE_V_DIFF
      · rw [if_pos hd] at hns ⊢
        by_cases hf : fst = 0
        · rw [if_pos hf, if_pos htime]
        · rw [if_neg hf] at hns ⊢
          rw [if_neg (not_lt.mpr hns.1), if_pos htime]
      · rw [if_neg hd, if_pos htime]
  | cons q pre' ih =>
      intro old fst hns hble htime
      obtain ⟨nv, nt⟩ := q
      have hnv : nv ≤ vlimit := hble (nv, nt) (by simp)
      simp only [List.cons_append] at hns ⊢
      simp only [never_stabilised] at hns
      simp only [enableLoop]
      rw [if_neg (not_lt.mpr hnv)]
      have hble' : ∀ q ∈ pre' ++ [p], q.1 ≤ vlimit := fun q hq =>
        hble q (List.mem_cons_of_mem _ hq)
      by_cases hd : |nv - old| < OUTPUT_STABLISE_V_DIFF
      · rw [if_pos hd] at hns ⊢
        by_cases hf : fst = 0
        · rw [if_pos hf] at hns ⊢
          by_cases ht : nt - start > OUTPUT_STABLISE_TIMEOUT_NS
          · rw [if_pos ht]
          · rw [if_neg ht]
            exact ih nv nt hns hble' htime
        · rw [if_neg hf] at hns ⊢
          rw [if_neg (not_lt.mpr hns.1)]
          by_cases ht : nt - start > OUTPUT_STABLISE_TIMEOUT_NS
          · rw [if_pos ht]
          · rw [if_neg ht]
            exact ih nv fst hns.2 hble' htime
      · rw [if_neg hd] at hns ⊢
        by_cases ht : nt - start > OUTPUT_STABLISE_TIMEOUT_NS
        · rw [if_pos ht]
        · rw [if_neg ht]
          exact ih nv 0 hns hble' htime

/-- C4: during enable_main_output, if the output voltage has not stabilised
— no window of consecutive samples within the voltage delta is sustained for
the required duration — before the total elapsed time exceeds the overall
timeout, the operation aborts with the stabilisation-timeout FaultError and
the main-enable line is de-asserted in the state returned with the error.
First conjunct: whenever the call ends in the stabilisation timeout, the
enable line is low.  Second conjunct: on any trace that never stabilises up
to a sample p past the 200 ms deadline (transient entries into the delta
that do not last the 10 ms sustain duration included) and stays at or below
the voltage limit up to p, the call returns exactly the disabled state and
the timeout error, whatever samples follow p. -/
theorem enable_main_output_stabilise_timeout :
    (∀ (s : YState) (vin : ℚ) (start : Int) (old0 : ℚ)
        (samples : List (ℚ × Int)) (s' : YState),
        enable_main_output s vin start old0 samples =
          some (s', some (.fault .stabiliseTimeout)) → s'.main_en = false) ∧
    (∀ (s : YState) (vin : ℚ) (start : Int) (old0 : ℚ)
        (pre : List (ℚ × Int)) (p : ℚ × Int) (post : List (ℚ × Int)),
        s.main_en = false →
        vin ≤ s.voltage_limit → vin ≤ ABSOLUTE_MAX_VOLTAGE_LIMIT →
        VOLTAGE_LOWER_LIMIT ≤ vin →
        never_stabilised old0 0 (pre ++ [p]) →
        (∀ q ∈ pre ++ [p], q.1 ≤ s.voltage_limit) →
        p.2 - start > OUTPUT_STABLISE_TIMEOUT_NS →
        enable_main_output s vin start old0 (pre ++ p :: post) =
          some ({ s with main_en := false }, some (.fault .stabiliseTimeout))) := by
  constructor
  · intro s vin start old0 samples s' h
    unfold enable_main_output at h
    split_ifs at h
    · simp at h
    · simp at h
    · simp at h
    · simp at h
    · simp at h
    · rcases hl : enableLoop s.voltage_limit start old0 0 samples with _ | lo
      · rw [hl] at h
        simp at h
      · rw [hl] at h
        cases lo with
        | overVoltage v => simp at h
        | timeout =>
            have h' := Option.some.inj h
            have hs : { s with main_en := false } = s' := congrArg Prod.fst h'
            rw [← hs]
        | stable v =>
            simp at h
            split_ifs at h <;> simp_all
  · intro s vin start old0 pre p post hen hvl habs hlow hns hble htime
    have hzero : VOLTAGE_ZERO_LEVEL ≤ vin :=
      le_trans (by norm_num [VOLTAGE_ZERO_LEVEL, VOLTAGE_LOWER_LIMIT]) hlow
    unfold enable_main_output
    rw [if_neg (by simp [hen]), if_neg (not_lt.mpr habs), if_neg (not_lt.mpr hvl),
      if_neg (not_lt.mpr hzero), if_neg (not_lt.mpr hlow),
      enableLoop_timeout_of_never_stabilised s.voltage_limit start p post pre
        old0 0 hns hble htime]

/-- Witness for C4: a trace that transiently enters the stabilise delta —
two consecutive in-delta samples whose stable window lasts only 4 ms, then a
1 V jump resetting the debounce, then an in-delta sample at 300 ms — never
stabilises, crosses the 200 ms deadline at that last sample, and aborts with
the timeout and the enable line low. -/
theorem enable_main_output_stabilise_timeout_witness :
    enable_main_output
        { voltage_limit := 86/5, current_limit := 20, temperature_limit := 80,
          main_en := false, slots := [], stats := clearedStats } 12 0 0
        [(1/20, 1000000), (2/25, 5000000), (1, 8000000), (21/20, 300000000)] =
      some
        ({ voltage_limit := 86/5, current_limit := 20, temperature_limit := 80,
           main_en := false, slots := [], stats := clearedStats },
         some (.fault .stabiliseTimeout)) :=
  enable_main_output_stabilise_timeout.2
    { voltage_limit := 86/5, current_limit := 20, temperature_limit := 80,
      main_en := false, slots := [], stats := clearedStats } 12 0 0
    [(1/20, 1000000), (2/25, 5000000), (1, 8000000)] (21/20, 300000000) []
    rfl
    (show (12:ℚ) ≤ 86/5 by norm_num)
    (show (12:ℚ) ≤ ABSOLUTE_MAX_VOLTAGE_LIMIT by
      norm_num [ABSOLUTE_MAX_VOLTAGE_LIMIT])
    (show VOLTAGE_LOWER_LIMIT ≤ (12:ℚ) by norm_num [VOLTAGE_LOWER_LIMIT])
    (by
      norm_num [never_stabilised, OUTPUT_STABLISE_V_DIFF,
        OUTPUT_STABLISE_TIME_NS, abs_of_nonneg])
    (by
      intro q hq
      rcases List.mem_cons.mp hq with h | h
      · rw [h]
        show (1/20:ℚ) ≤ 86/5
        norm_num
      · rcases List.mem_cons.mp h with h2 | h2
        · rw [h2]
          show (2/25:ℚ) ≤ 86/5
          norm_num
        · rcases List.mem_cons.mp h2 with h3 | h3
          · rw [h3]
            show (1:ℚ) ≤ 86/5
            norm_num
          · rcases List.mem_cons.mp h3 with h4 | h4
            · rw [h4]
              show (21/20:ℚ) ≤ 86/5
              norm_num
            · simp at h4)
    (by norm_num [OUTPUT_STABLISE_TIMEOUT_NS])

/-- The undet flag of one scan step. -/
theorem scan_step_undet (aU aUn aD : List ℕ) (f : VFlags)
    (e : ℕ × Option MType × Option MType) :
    ((scan_step aU aUn aD f e).undet = true ↔
      f.undet = true ∨ (slot_category e.2.1 e.2.2 = .undetected ∧ e.1 ∉ aUn)) := by
  cases hcat : slot_category e.2.1 e.2.2
  case empty => simp [scan_step, hcat]
  case correct => simp [scan_step, hcat]
  case undetected =>
      simp only [scan_step, hcat]
      split_ifs with hm <;> simp_all
  case unregDetected =>
      simp only [scan_step, hcat]
      split_ifs with hm <;> simp_all
  case discrepancy =>
      simp only [scan_step, hcat]
      split_ifs with hm <;> simp_all

/-- The disc flag of one scan step. -/
theorem scan_step_disc (aU aUn aD : List ℕ) (f : VFlags)
    (e : ℕ × Option MType × Option MType) :
    ((scan_step aU aUn aD f e).disc = true ↔
      f.disc = true ∨ (slot_category e.2.1 e.2.2 = .discrepancy ∧ e.1 ∉ aD)) := by
  cases hcat : slot_category e.2.1 e.2.2
  case empty => simp [scan_step, hcat]
  case correct => simp [scan_step, hcat]
  case undetected =>
      simp only [scan_step, hcat]
      split_ifs with hm <;> simp_all
  case unregDetected =>
      simp only [scan_step, hcat]
      split_ifs with hm <;> simp_all
  case discrepancy =>
      simp only [scan_step, hcat]
      split_ifs with hm <;> simp_all

/-- The unreg flag of one scan step. -/
theorem scan_step_unreg (aU aUn aD : List ℕ) (f : VFlags)
    (e : ℕ × Option MType × Option MType) :
    ((scan_step aU aUn aD f e).unreg = true ↔
      f.unreg = true ∨ (slot_category e.2.1 e.2.2 = .unregDetected ∧ e.1 ∉ aU)) := by
  cases hcat : slot_category e.2.1 e.2.2
  case empty => simp [scan_step, hcat]
  case correct => simp [scan_step, hcat]
  case undetected =>
      simp only [scan_step, hcat]
      split_ifs with hm <;> simp_all
  case unregDetected =>
      simp only [scan_step, hcat]
      split_ifs with hm <;> simp_all
  case discrepancy =>
      simp only [scan_step, hcat]
      split_ifs with hm <;> simp_all

/-- The unregistered counter of one scan step. -/
theorem scan_step_count (aU aUn aD : List ℕ) (f : VFlags)
    (e : ℕ × Option MType × Option MType) :
    (scan_step aU aUn aD f e).count = f.count +
      (if slot_category e.2.1 e.2.2 = .empty ∨
          slot_category e.2.1 e.2.2 = .unregDetected then 1 else 0) := by
  cases hcat : slot_category e.2.1 e.2.2
  case empty => simp [scan_step, hcat]
  case correct => simp [scan_step, hcat]
  case undetected =>
      simp only [scan_step, hcat]
      split_ifs with hm <;> simp_all
  case unregDetected =>
      simp only [scan_step, hcat]
      split_ifs with hm <;> simp_all
  case discrepancy =>
      simp only [scan_step, hcat]
      split_ifs with hm <;> simp_all

/-- The undet flag after the full scan: some non-allowed undetected slot. -/
theorem foldl_scan_undet (aU aUn aD : List ℕ) :
    ∀ (entries : List (ℕ × Option MType × Option MType)) (f : VFlags),
      ((entries.foldl (scan_step aU aUn aD) f).undet = true ↔
        f.undet = true ∨ ∃ e ∈ entries,
          slot_category e.2.1 e.2.2 = .undetected ∧ e.1 ∉ aUn) := by
  intro entries
  induction entries with
  | nil => simp
  | cons hd tl ih =>
      intro f
      rw [List.foldl_cons, ih, scan_step_undet]
      constructor
      · rintro ((h | h) | ⟨e, he, hoff⟩)
        · exact .inl h
        · exact .inr ⟨hd, by simp, h⟩
        · exact .inr ⟨e, by simp [he], hoff⟩
      · rintro (h | ⟨e, he, hoff⟩)
        · exact .inl (.inl h)
        · rcases List.mem_cons.mp he with rfl | he'
          · exact .inl (.inr hoff)
          · exact .inr ⟨e, he', hoff⟩

/-- The disc flag after the full scan: some non-allowed discrepancy slot. -/
theorem foldl_scan_disc (aU aUn aD : List ℕ) :
    ∀ (entries : List (ℕ × Option MType × Option MType)) (f : VFlags),
      ((entries.foldl (scan_step aU aUn aD) f).disc = true ↔
        f.disc = true ∨ ∃ e ∈ entries,
          slot_category e.2.1 e.2.2 = .discrepancy ∧ e.1 ∉ aD) := by
  intro entries
  induction entries with
  | nil => simp
  | cons hd tl ih =>
      intro f
      rw [List.foldl_cons, ih, scan_step_disc]
      constructor
      · rintro ((h | h) | ⟨e, he, hoff⟩)
        · exact .inl h
        · exact .inr ⟨hd, by simp, h⟩
        · exact .inr ⟨e, by simp [he], hoff⟩
      · rintro (h | ⟨e, he, hoff⟩)
        · exact .inl (.inl h)
        · rcases List.mem_cons.mp he with rfl | he'
          · exact .inl (.inr hoff)
          · exact .inr ⟨e, he', hoff⟩

/-- The unreg flag after the full scan: some non-allowed unregistered slot. -/
theorem foldl_scan_unreg (aU aUn aD : List ℕ) :
    ∀ (entries : List (ℕ × Option MType × Option MType)) (f : VFlags),
      ((entries.foldl (scan_step aU aUn aD) f).unreg = true ↔
        f.unreg = true ∨ ∃ e ∈ entries,
          slot_category e.2.1 e.2.2 = .unregDetected ∧ e.1 ∉ aU) := by
  intro entries
  induction entries with
  | nil => simp
  | cons hd tl ih =>
      intro f
      rw [List.foldl_cons, ih, scan_step_unreg]
      constructor
      · rintro ((h | h) | ⟨e, he, hoff⟩)
        · exact .inl h
        · exact .inr ⟨hd, by simp, h⟩
        · exact .inr ⟨e, by simp [he], hoff⟩
      · rintro (h | ⟨e, he, hoff⟩)
        · exact .inl (.inl h)
        · rcases List.mem_cons.mp he with rfl | he'
          · exact .inl (.inr hoff)
          · exact .inr ⟨e, he', hoff⟩

/-- The unregistered counter after the full scan counts the empty and
detected-but-unregistered slots. -/
theorem foldl_scan_count (aU aUn aD : List ℕ) :
    ∀ (entries : List (ℕ × Option MType × Option MType)) (f : VFlags),
      (entries.foldl (scan_step aU aUn aD) f).count = f.count +
        entries.countP (fun e => decide (slot_category e.2.1 e.2.2 = .empty ∨
          slot_category e.2.1 e.2.2 = .unregDetected)) := by
  intro entries
  induction entries with
  | nil => simp
  | cons hd tl ih =>
      intro f
      rw [List.foldl_cons, ih, scan_step_count, List.countP_cons]
      by_cases hP : slot_category hd.2.1 hd.2.2 = .empty ∨
          slot_category hd.2.1 hd.2.2 = .unregDetected
      · simp only [hP, decide_eq_true_eq, if_pos hP, if_pos]
        omega
      · simp only [if_neg hP]
        rw [if_neg (by simpa using hP)]
        omega

/-- slot_entries has one entry per slot pair. -/
theorem slot_entries_length :
    ∀ (n : ℕ) (reg det : List (Option MType)),
      (slot_entries n reg det).length = min reg.length det.length := by
  intro n reg
  induction reg generalizing n with
  | nil => intro det; simp [slot_entries]
  | cons r rs ih =>
      intro det
      cases det with
      | nil => simp [slot_entries]
      | cons d ds =>
          simp only [slot_entries, List.length_cons, ih]
          omega

/-- The registered component of every slot entry comes from the registry. -/
theorem slot_entries_reg_mem :
    ∀ (n : ℕ) (reg det : List (Option MType))
      (e : ℕ × Option MType × Option MType),
      e ∈ slot_entries n reg det → e.2.1 ∈ reg := by
  intro n reg
  induction reg generalizing n with
  | nil => intro det e he; simp [slot_entries] at he
  | cons r rs ih =>
      intro det e he
      cases det with
      | nil => simp [slot_entries] at he
      | cons d ds =>
          rcases List.mem_cons.mp he with h | h
          · rw [h]
            simp
          · exact List.mem_cons_of_mem _ (ih (n + 1) ds e h)

/-- C5: verification never aborts mid-scan: the result of __verify_modules
is a function of the classification of every slot entry — it is none exactly
when no slot exhibits a non-allowed offending category and the no-modules
condition does not hold (first conjunct, quantifying over all entries of the
full scan); any raised error is a single VerificationError (second
conjunct); and a board with zero registered modules is itself a
VerificationError unless explicitly allowed (third conjunct). -/
theorem verify_modules_full_scan (reg det : List (Option MType))
    (aU aUn aD : List ℕ) (aNo : Bool) :
    (verify_modules reg det aU aUn aD aNo = none ↔
      (aNo = true ∨ (slot_entries 1 reg det).countP
          (fun e => decide (slot_category e.2.1 e.2.2 = .empty ∨
            slot_category e.2.1 e.2.2 = .unregDetected)) ≠ NUM_SLOTS) ∧
      (∀ e ∈ slot_entries 1 reg det,
        ¬(slot_category e.2.1 e.2.2 = .discrepancy ∧ e.1 ∉ aD)) ∧
      (∀ e ∈ slot_entries 1 reg det,
        ¬(slot_category e.2.1 e.2.2 = .undetected ∧ e.1 ∉ aUn)) ∧
      (∀ e ∈ slot_entries 1 reg det,
        ¬(slot_category e.2.1 e.2.2 = .unregDetected ∧ e.1 ∉ aU))) ∧
    (∀ er, verify_modules reg det aU aUn aD aNo = some er →
      ∃ k, er = .verification k) ∧
    ((∀ r ∈ reg, r = none) → reg.length = 6 → det.length = 6 → aNo = false →
      verify_modules reg det aU aUn aD aNo = some (.verification .noModules)) := by
  have hcount := foldl_scan_count aU aUn aD (slot_entries 1 reg det)
    ⟨false, false, false, 0⟩
  have hundet := foldl_scan_undet aU aUn aD (slot_entries 1 reg det)
    ⟨false, false, false, 0⟩
  have hdisc := foldl_scan_disc aU aUn aD (slot_entries 1 reg det)
    ⟨false, false, false, 0⟩
  have hunreg := foldl_scan_unreg aU aUn aD (slot_entries 1 reg det)
    ⟨false, false, false, 0⟩
  simp only [show (⟨false, false, false, 0⟩ : VFlags).undet = false from rfl,
    show (⟨false, false, false, 0⟩ : VFlags).disc = false from rfl,
    show (⟨false, false, false, 0⟩ : VFlags).unreg = false from rfl,
    show (⟨false, false, false, 0⟩ : VFlags).count = 0 from rfl,
    Bool.false_eq_true, false_or, Nat.zero_add] at hcount hundet hdisc hunreg
  refine ⟨?_, ?_, ?_⟩
  · have hmain : verify_modules reg det aU aUn aD aNo = none ↔
        ¬(aNo = false ∧ (List.foldl (scan_step aU aUn aD)
            (⟨false, false, false, 0⟩ : VFlags) (slot_entries 1 reg det)).count =
          NUM_SLOTS) ∧
        (List.foldl (scan_step aU aUn aD) (⟨false, false, false, 0⟩ : VFlags)
          (slot_entries 1 reg det)).disc = false ∧
        (List.foldl (scan_step aU aUn aD) (⟨false, false, false, 0⟩ : VFlags)
          (slot_entries 1 reg det)).undet = false ∧
        (List.foldl (scan_step aU aUn aD) (⟨false, false, false, 0⟩ : VFlags)
          (slot_entries 1 reg det)).unreg = false := by
      simp only [verify_modules, verify_scan]
      split_ifs with h1 h2 h3 h4 <;> simp_all
    rw [hmain]
    constructor
    · rintro ⟨ha, hb, hc2, hd2⟩
      refine ⟨?_, ?_, ?_, ?_⟩
      · rcases Bool.eq_false_or_eq_true aNo with hA | hA
        · left
          exact hA
        · right
          intro hcnt
          exact ha ⟨hA, by rw [hcount]; exact hcnt⟩
      · intro e he hoff
        have hx := hdisc.mpr ⟨e, he, hoff⟩
        rw [hb] at hx
        simp at hx
      · intro e he hoff
        have hx := hundet.mpr ⟨e, he, hoff⟩
        rw [hc2] at hx
        simp at hx
      · intro e he hoff
        have hx := hunreg.mpr ⟨e, he, hoff⟩
        rw [hd2] at hx
        simp at hx
    · rintro ⟨h1', h2', h3', h4'⟩
      refine ⟨?_, ?_, ?_, ?_⟩
      · rintro ⟨hA, hcnt⟩
        rcases h1' with h | h
        · rw [hA] at h
          exact absurd h (by simp)
        · rw [hcount] at hcnt
          exact h hcnt
      · rw [Bool.eq_false_iff]
        intro hx
        obtain ⟨e, he, hoff⟩ := hdisc.mp hx
        exact h2' e he hoff
      · rw [Bool.eq_false_iff]
        intro hx
        obtain ⟨e, he, hoff⟩ := hundet.mp hx
        exact h3' e he hoff
      · rw [Bool.eq_false_iff]
        intro hx
        obtain ⟨e, he, hoff⟩ := hunreg.mp hx
        exact h4' e he hoff
  · intro er h
    simp only [verify_modules, verify_scan] at h
    split_ifs at h
    · exact ⟨.noModules, (Option.some.inj h).symm⟩
    · exact ⟨.discrepancy, (Option.some.inj h).symm⟩
    · exact ⟨.undetected, (Option.some.inj h).symm⟩
    · exact ⟨.unregistered, (Option.some.inj h).symm⟩
  · intro hall hlr hld hano
    have hlen : (slot_entries 1 reg det).length = 6 := by
      rw [slot_entries_length, hlr, hld]
      omega
    have hone : ∀ e ∈ slot_entries 1 reg det,
        (fun e : ℕ × Option MType × Option MType =>
          decide (slot_category e.2.1 e.2.2 = .empty ∨
            slot_category e.2.1 e.2.2 = .unregDetected)) e = true := by
      intro e he
      have hreg : e.2.1 = none := hall e.2.1 (slot_entries_reg_mem 1 reg det e he)
      cases hdet : e.2.2 with
      | none => simp [slot_category, hreg, hdet]
      | some d => simp [slot_category, hreg, hdet]
    have hsix : NUM_SLOTS = 6 := rfl
    have hc6 : (List.foldl (scan_step aU aUn aD) (⟨false, false, false, 0⟩ : VFlags)
        (slot_entries 1 reg det)).count = NUM_SLOTS := by
      rw [hcount, List.countP_eq_length.mpr hone, hlen, hsix]
    simp only [verify_modules, verify_scan]
    rw [if_pos ⟨hano, hc6⟩]

/-- Witness for C5: an entirely unregistered (and undetected) six-slot board
with nothing allowed fails verification with the no-modules error. -/
theorem verify_modules_full_scan_witness :
    verify_modules (List.replicate 6 none) (List.replicate 6 none) [] [] [] false =
      some (.verification .noModules) :=
  (verify_modules_full_scan (List.replicate 6 none) (List.replicate 6 none)
      [] [] [] false).2.2
    (by simp) (by simp) (by simp) rfl

end Yukon

end YukonModel

namespace Timing

/-- C10: wraparound tick arithmetic round-trips: for ticks t in [0, 2^29) and
delta d with |d| < 2^28, ticks_diff (ticks_add t d) t = d; and ticks_add
always lands in [0, 2^29). -/
theorem ticks_roundtrip :
    (∀ t d : Int, 0 ≤ t → t < 536870912 → -268435456 < d → d < 268435456 →
      ticks_diff (ticks_add t d) t = d) ∧
    (∀ t d : Int, 0 ≤ ticks_add t d ∧ ticks_add t d < 536870912) := by
  constructor
  · intro t d ht0 htP hdl hdu
    unfold ticks_diff ticks_add TICKS_PERIOD TICKS_HALFPERIOD
    omega
  · intro t d
    unfold ticks_add TICKS_PERIOD
    constructor
    · exact Int.emod_nonneg _ (by norm_num)
    · exact Int.emod_lt_of_pos _ (by norm_num)

/-- Witness for C10: a concrete round-trip across the wrap boundary. -/
theorem ticks_roundtrip_witness :
    ticks_diff (ticks_add 536870910 5) 536870910 = 5 :=
  ticks_roundtrip.1 536870910 5 (by norm_num) (by norm_num) (by norm_num)
    (by norm_num)

end Timing

namespace BenchPower

/-- C8: the calibrated voltage conversion never returns a negative value:
for every raw sample the result is ≥ 0 — the low branch clamps to zero via
max(..., 0), and the upper interpolation branch is strictly positive under
its branch condition. -/
theorem read_voltage_nonneg (voltage : ℚ) :
    0 ≤ read_voltage voltage ∧
      (voltage ≥ VOLTAGE_MID_MEASURE → 0 < read_voltage voltage) := by
  constructor
  · unfold read_voltage
    split
    · rename_i h
      have hnum : 0 ≤ (voltage - VOLTAGE_MID_MEASURE) * (VOLTAGE_MAX - VOLTAGE_MID) := by
        apply mul_nonneg
        · unfold VOLTAGE_MID_MEASURE at h ⊢
          linarith
        · unfold VOLTAGE_MAX VOLTAGE_MID
          norm_num
      have hden : (0:ℚ) < VOLTAGE_MAX_MEASURE - VOLTAGE_MID_MEASURE := by
        unfold VOLTAGE_MAX_MEASURE VOLTAGE_MID_MEASURE
        norm_num
      have hq : 0 ≤ (voltage - VOLTAGE_MID_MEASURE) * (VOLTAGE_MAX - VOLTAGE_MID) /
          (VOLTAGE_MAX_MEASURE - VOLTAGE_MID_MEASURE) := div_nonneg hnum (le_of_lt hden)
      have hmid : (0:ℚ) < VOLTAGE_MID := by unfold VOLTAGE_MID; norm_num
      linarith
    · exact le_max_right _ _
  · intro h
    unfold read_voltage
    rw [if_pos h]
    have hnum : 0 ≤ (voltage - VOLTAGE_MID_MEASURE) * (VOLTAGE_MAX - VOLTAGE_MID) := by
      apply mul_nonneg
      · linarith
      · unfold VOLTAGE_MAX VOLTAGE_MID
        norm_num
    have hden : (0:ℚ) < VOLTAGE_MAX_MEASURE - VOLTAGE_MID_MEASURE := by
      unfold VOLTAGE_MAX_MEASURE VOLTAGE_MID_MEASURE
      norm_num
    have hq : 0 ≤ (voltage - VOLTAGE_MID_MEASURE) * (VOLTAGE_MAX - VOLTAGE_MID) /
        (VOLTAGE_MAX_MEASURE - VOLTAGE_MID_MEASURE) := div_nonneg hnum (le_of_lt hden)
    have hmid : (0:ℚ) < VOLTAGE_MID := by unfold VOLTAGE_MID; norm_num
    linarith

/-- Witness for C8: at a concrete in-calibration sample the conversion is
strictly positive. -/
theorem read_voltage_nonneg_witness : 0 < read_voltage 2 :=
  (read_voltage_nonneg 2).2 (by unfold VOLTAGE_MID_MEASURE; norm_num)

end BenchPower
